import Mathlib

/-!
Verification development for the rate-limited request dispatch subsystem of
the semantic-scholar MCP server (`src/semantic_scholar/utils/http.py`,
`src/semantic_scholar/config.py`, `src/semantic_scholar/bridge.py`).

The Python code is shallowly embedded: strings are Lean `String`s, Python's
`in` (substring test) is `pyIn`, simulated time is `ℚ` (the repository's own
tests drive the limiter with a deterministic clock/sleep substitute), dicts
are association lists, and Python attribute lookups that can raise
`AttributeError` are modelled with `Option`.
-/

/-! ### Python string primitives -/

/-- Contiguous-sublist test on character lists: `containsSub needle hay`
is Python's `needle in hay` for strings. -/
def containsSub (needle : List Char) : List Char → Bool
  | [] => needle.isEmpty
  | c :: rest => List.isPrefixOf needle (c :: rest) || containsSub needle rest

/-- Python's `needle in hay` for strings. -/
def pyIn (needle hay : String) : Bool :=
  containsSub needle.data hay.data

/-- The whitespace characters stripped by Python's `str.strip()`. -/
def pyWhitespaceChar (c : Char) : Bool :=
  c = ' ' || c = '\t' || c = '\n' || c = '\r' || c = '\x0b' || c = '\x0c'

/-- Python's `str.strip()`: drop whitespace from both ends. -/
def pyStrip (s : String) : String :=
  ⟨(((s.data.dropWhile pyWhitespaceChar).reverse.dropWhile pyWhitespaceChar).reverse)⟩

/-- Python's `str.lower()` (ASCII case folding, which is all the source uses). -/
def pyLower (s : String) : String :=
  ⟨s.data.map Char.toLower⟩

/-! ### Rate limit configuration (`src/semantic_scholar/config.py`)

Python class attributes are looked up dynamically; an attribute that the
class does not define raises `AttributeError` when read.  Each limit
attribute is therefore an `Option (Int × Int)`: `none` means the attribute
is absent and reading it raises. -/

structure RateLimitConfig where
  SEARCH_LIMIT : Option (Int × Int)
  BATCH_LIMIT : Option (Int × Int)
  DEFAULT_LIMIT : Option (Int × Int)
  UNAUTHENTICATED_LIMIT : Option (Int × Int)
  RECOMMENDATIONS_LIMIT : Option (Int × Int)
  RESTRICTED_ENDPOINTS : List String
deriving DecidableEq

/-- The configuration shipped in `src/semantic_scholar/config.py` (lines
11-25).  `UNAUTHENTICATED_LIMIT` and `RECOMMENDATIONS_LIMIT` are *not*
defined there, although `http.py` reads them. -/
def srcRateLimitConfig : RateLimitConfig :=
  ⟨some (1, 1), some (1, 1), some (10, 1), none, none,
    ["/paper/batch", "/paper/search", "/recommendations"]⟩

/-! ### `RateLimiter._bucket_key` (http.py lines 34-53) -/

/-- Embedding of `RateLimiter._bucket_key`.  Python's `if base_url and ... in base_url`
treats `None` and the empty string as falsy. -/
def bucketKey (endpoint : String) (baseUrl : Option String) : String :=
  if (match baseUrl with
      | some b => !(b = "") && pyIn "recommendations" b
      | none => false) then "/recommendations"
  else if pyIn "recommendations" endpoint then "/recommendations"
  else if pyIn "/author/search" endpoint then "/author/search"
  else if pyIn "/paper/search" endpoint then "/paper/search"
  else if pyIn "/paper/batch" endpoint then "/paper/batch"
  else if pyIn "/author/batch" endpoint then "/author/batch"
  else "/default"

/-- The endpoint string `acquire` feeds to `_get_rate_limit`
(http.py line 82): the bucket, except that the `/default` bucket passes
the literal endpoint through. -/
def limitEndpointOf (endpoint : String) (baseUrl : Option String) : String :=
  if bucketKey endpoint baseUrl ≠ "/default" then bucketKey endpoint baseUrl else endpoint

/-! ### `RateLimiter._get_rate_limit` (http.py lines 55-67) -/

/-- Embedding of `RateLimiter._get_rate_limit`.  Result `none` models the
`AttributeError` raised when the referenced config attribute is absent. -/
def getRateLimit (cfg : RateLimitConfig) (endpoint : String)
    (authenticated : Bool) : Option (Int × Int) :=
  if !authenticated then cfg.UNAUTHENTICATED_LIMIT
  else if cfg.RESTRICTED_ENDPOINTS.any (fun r => pyIn r endpoint) then
    if pyIn "batch" endpoint then cfg.BATCH_LIMIT
    else if pyIn "search" endpoint then cfg.SEARCH_LIMIT
    else if pyIn "recommendations" endpoint then cfg.RECOMMENDATIONS_LIMIT
    else cfg.SEARCH_LIMIT
  else cfg.DEFAULT_LIMIT

/-- The limit pair an `acquire` call resolves for a request
(http.py lines 82-83). -/
def resolvedLimit (cfg : RateLimitConfig) (endpoint : String)
    (authenticated : Bool) (baseUrl : Option String) : Option (Int × Int) :=
  getRateLimit cfg (limitEndpointOf endpoint baseUrl) authenticated

/-! ### Limiter state

`RateLimiter` keeps a dict of per-bucket event deques (`self._events`).
We model the dict as an association list (Python dicts preserve insertion
order; a fresh key is appended at the end) and the deque as a `List ℚ`
with the oldest event at the head.  The repository's own tests drive the
limiter with a deterministic substitute: `clock()` returns a variable
`now` and `sleep(d)` advances it by `d`; `now : ℚ` below is that
simulated clock. -/

structure LimiterState where
  now : ℚ
  events : List (String × List ℚ)
deriving DecidableEq

/-- Dict read: first binding for the key, if any. -/
def lookupD (d : List (String × List ℚ)) (k : String) : Option (List ℚ) :=
  match d with
  | [] => none
  | (k', v) :: rest => if k' = k then some v else lookupD rest k

/-- Dict write: overwrite the binding for the key, appending a fresh key at
the end (Python dict insertion order). -/
def setD (d : List (String × List ℚ)) (k : String) (v : List ℚ) :
    List (String × List ℚ) :=
  match d with
  | [] => [(k, v)]
  | (k', v') :: rest => if k' = k then (k, v) :: rest else (k', v') :: setD rest k v

/-- Embedding of `if bucket not in self._locks: ... self._events[bucket] = deque()`
(http.py lines 77-79): ensure the bucket has an (empty) event deque. -/
def ensureD (d : List (String × List ℚ)) (k : String) : List (String × List ℚ) :=
  if (lookupD d k).isSome then d else setD d k []

/-! ### The `while True` admission loop (http.py lines 88-100)

One fuel step is one iteration of the Python loop under the deterministic
clock/sleep substitute.  The first component of the result collects, for
every pass through `await self._sleep(delay)`, the pair
(simulated time at which the sleep starts, event log while suspended);
the second component is the final clock value and event log on return,
or `none` if fuel ran out (which the theorems below show never matters
for the runs they describe). -/

def acquireLoopT (requests : Nat) (seconds : ℚ) :
    Nat → ℚ → List ℚ → List (ℚ × List ℚ) × Option (ℚ × List ℚ)
  | 0, _, _ => ([], none)
  | fuel + 1, now, events =>
    let pruned := events.dropWhile fun e => decide (e ≤ now - seconds)
    if pruned.length < requests then
      ([], some (now, pruned ++ [now]))
    else
      match pruned with
      | [] => ([], none)
      | e0 :: rest =>
        let delay := e0 + seconds - now
        if 0 < delay then
          let r := acquireLoopT requests seconds fuel (now + delay) (e0 :: rest)
          ((now, e0 :: rest) :: r.1, r.2)
        else
          acquireLoopT requests seconds fuel now (e0 :: rest)

/-- Embedding of `RateLimiter.acquire` (http.py lines 69-100) under the deterministic
clock/sleep substitute.  Returns `none` when the Python code would raise
(`AttributeError` from a missing config attribute); otherwise returns the
updated limiter state and the simulated time at which the call returned. -/
def acquire (cfg : RateLimitConfig) (endpoint : String) (authenticated : Bool)
    (baseUrl : Option String) (st : LimiterState) : Option (LimiterState × ℚ) :=
  let bucket := bucketKey endpoint baseUrl
  let events0 := ensureD st.events bucket
  match resolvedLimit cfg endpoint authenticated baseUrl with
  | none => none
  | some (requests, seconds) =>
    if requests ≤ 0 ∨ seconds ≤ 0 then
      some (⟨st.now, events0⟩, st.now)
    else
      let ev := (lookupD events0 bucket).getD []
      match (acquireLoopT requests.toNat (seconds : ℚ) (ev.length + 1) st.now ev).2 with
      | some (now', ev') => some (⟨now', setD events0 bucket ev'⟩, now')
      | none => none

/-- Iterate `acquire` a number of times on the same request, threading the
limiter state. -/
def acquireN (cfg : RateLimitConfig) (endpoint : String) (authenticated : Bool)
    (baseUrl : Option String) : Nat → LimiterState → Option LimiterState
  | 0, st => some st
  | k + 1, st =>
    match acquire cfg endpoint authenticated baseUrl st with
    | some (st', _) => acquireN cfg endpoint authenticated baseUrl k st'
    | none => none

/-! ### Credential resolution (http.py lines 105-120 and 170-178)

`Option String` models a Python value that is either a string or `None`. -/

/-- The placeholder values both normalizers treat as "no key"
(http.py lines 114 and 174). -/
def keySentinels : List String := ["", "none", "null", "false"]

/-- Embedding of `make_request._normalize_key` (http.py lines 170-176).  `if not k`
catches both `None` and the empty string. -/
def normalizeKey (k : Option String) : Option String :=
  match k with
  | none => none
  | some s =>
    if s = "" then none
    else if pyLower (pyStrip s) ∈ keySentinels then none
    else some (pyStrip s)

/-- Embedding of `get_api_key` (http.py lines 105-120): the environment variable, with
placeholder values treated as unset.  Note it returns the raw (unstripped)
value when it is usable. -/
def getApiKey (env : Option String) : Option String :=
  match env with
  | none => none
  | some s =>
    if s = "" then none
    else if pyLower (pyStrip s) ∈ keySentinels then none
    else some s

/-- Python's `a or b` on optional strings: `a` when truthy (a non-empty
string), else `b`. -/
def pyOr (a b : Option String) : Option String :=
  match a with
  | some s => if s = "" then b else some s
  | none => b

/-- Embedding of `api_key = _normalize_key(api_key_override) or _normalize_key(get_api_key())`
(http.py line 178). -/
def resolveKey (override env : Option String) : Option String :=
  pyOr (normalizeKey override) (normalizeKey (getApiKey env))

/-- The condition "absent or, case-insensitively after trimming, one of the sentinels":
the condition under which the claim says a credential source is skipped. -/
def isAbsentOrSentinel (k : Option String) : Bool :=
  match k with
  | none => true
  | some s => s = "" || pyLower (pyStrip s) ∈ keySentinels

/-! ### Outcome classification in `make_request` (http.py lines 147-242)

`create_error_response` lives in `semantic_scholar/utils/errors.py`, which
is not among the source files; the identical function ships in
`semantic_scholar_server.py` lines 234-245 and the spec fixes the shape
`{error: {type, message, details}}`, so the record below is modelled from
those. -/

inductive ErrorType
  | RATE_LIMIT
  | API_ERROR
  | VALIDATION
  | TIMEOUT
deriving DecidableEq

/-- The `ErrorType(...).value` strings (config.py lines 28-32). -/
def ErrorType.value : ErrorType → String
  | .RATE_LIMIT => "rate_limit"
  | .API_ERROR => "api_error"
  | .VALIDATION => "validation"
  | .TIMEOUT => "timeout"

/-- A Python value appearing in an error's `details` dict. -/
inductive PyVal
  | none
  | str (s : String)
  | int (n : Int)
  | bool (b : Bool)
deriving DecidableEq

/-- Modelled from the spec: `create_error_response` (re-exported through
`semantic_scholar.utils.errors`, absent from the provided sources; the
copy in `semantic_scholar_server.py` lines 234-245 and spec section 3
give the shape): a structured record `{error: {type, message, details}}`. -/
structure ErrorRecord where
  errType : ErrorType
  message : String
  details : List (String × PyVal)
deriving DecidableEq

/-- Embedding of `create_error_response(error_type, message, details)`. -/
def createErrorResponse (t : ErrorType) (message : String)
    (details : List (String × PyVal)) : ErrorRecord :=
  ⟨t, message, details⟩

/-- What the `try` body of `make_request` produced: a decoded JSON payload,
an `httpx.HTTPStatusError` (non-2xx status, with the optional
`retry-after` response header and the response text), an
`httpx.TimeoutException`, or any other exception. -/
inductive RequestOutcome
  | ok (payload : PyVal)
  | httpStatusError (status : Int) (retryAfter : Option String) (body : String)
  | timedOut
  | exn (msg : String)
deriving DecidableEq

/-- The value `make_request` returns for a request. -/
inductive DispatchResult
  | payload (v : PyVal)
  | errorResp (e : ErrorRecord)
deriving DecidableEq

/-- The `except` cascade of `make_request` (http.py lines 208-242):
how each outcome is converted into a returned value.  `timeoutS` is
`Config.TIMEOUT`; `authenticated` is the tier resolved before the call. -/
def classifyOutcome (timeoutS : Int) (authenticated : Bool) :
    RequestOutcome → DispatchResult
  | .ok payload => .payload payload
  | .httpStatusError status retryAfter body =>
    if status = 429 then
      .errorResp (createErrorResponse .RATE_LIMIT
        "Rate limit exceeded. Consider using an API key for higher limits."
        [("status_code", .int status),
         ("retry_after", match retryAfter with | some s => .str s | none => .none),
         ("authenticated", .bool authenticated)])
    else
      .errorResp (createErrorResponse .API_ERROR
        ("HTTP error: " ++ toString status)
        [("status_code", .int status), ("response", .str body)])
  | .timedOut =>
    .errorResp (createErrorResponse .TIMEOUT
      ("Request timed out after " ++ toString timeoutS ++ " seconds") [])
  | .exn msg =>
    .errorResp (createErrorResponse .API_ERROR msg [])

/-- The error type of a dispatch result, if it is an error record. -/
def resultErrType : DispatchResult → Option ErrorType
  | .payload _ => none
  | .errorResp e => some e.errType

/-! ### Header redaction and logging (http.py lines 139-205, bridge.py
lines 97-114) -/

/-- Dict read on string-valued headers. -/
def lookupH (d : List (String × String)) (k : String) : Option String :=
  match d with
  | [] => none
  | (k', v) :: rest => if k' = k then some v else lookupH rest k

/-- Dict write on string-valued headers (overwrites every binding of the
key, which coincides with dict update when keys are unique). -/
def setH (d : List (String × String)) (k : String) (v : String) :
    List (String × String) :=
  match d with
  | [] => []
  | (k', v') :: rest => (if k' = k then (k', v) else (k', v')) :: setH rest k v

/-- One iteration of the loop in `_redact_headers`:
`if key in redacted and redacted[key]: redacted[key] = "***"`. -/
def redactOneKey (k : String) (d : List (String × String)) :
    List (String × String) :=
  match lookupH d k with
  | some v => if v ≠ "" then setH d k "***" else d
  | none => d

/-- Embedding of `_redact_headers` (http.py lines 139-144): redact the three
credential-bearing keys, in the source's iteration order. -/
def redactHeaders (d : List (String × String)) : List (String × String) :=
  redactOneKey "proxy-authorization" (redactOneKey "authorization" (redactOneKey "x-api-key" d))

/-- The headers `make_request` builds (http.py lines 184-190): the
credential header only when a key is present, then a `User-Agent` added
by `setdefault`. -/
def requestHeaders (apiKey : Option String) : List (String × String) :=
  (match apiKey with
   | some k => [("x-api-key", k)]
   | none => []) ++ [("User-Agent", "semantic-scholar-mcp/1.0 (+https://github.com)")]

/-- The headers `make_request` passes to its debug log
(http.py lines 198-204): they go through `_redact_headers`. -/
def makeRequestLoggedHeaders (apiKey : Option String) : List (String × String) :=
  redactHeaders (requestHeaders apiKey)

/-- The headers the bridge's `paper_batch` handler passes to its debug log
(bridge.py lines 97-107): `{"x-api-key": token} if token else {}`, logged
directly, with no redaction step. -/
def bridgeBatchLoggedHeaders (token : Option String) : List (String × String) :=
  match token with
  | some t => if t = "" then [] else [("x-api-key", t)]
  | none => []

/-- The bucket rule table exactly as the spec words it (section 4.1):
the recommendations domain mentioned in the base URL or the endpoint
first, then the exact category segment matches.  Written to be compared
against the source's `bucketKey`. -/
def specBucketRules (endpoint : String) (baseUrl : Option String) : List (Bool × String) :=
  [((match baseUrl with
     | some b => !(b = "") && pyIn "recommendations" b
     | none => false) || pyIn "recommendations" endpoint, "/recommendations"),
   (pyIn "/author/search" endpoint, "/author/search"),
   (pyIn "/paper/search" endpoint, "/paper/search"),
   (pyIn "/paper/batch" endpoint, "/paper/batch"),
   (pyIn "/author/batch" endpoint, "/author/batch")]

/-- First-match-wins evaluation of a rule table, defaulting to
`"/default"`. -/
def specFirstMatch : List (Bool × String) → String
  | [] => "/default"
  | (c, k) :: rest => if c then k else specFirstMatch rest

/-- The configuration the repository's own test
`test_rate_limiter_uses_unauthenticated_limits` installs via monkeypatch:
`DEFAULT_LIMIT = (100, 1)`, `UNAUTHENTICATED_LIMIT = (1, 5)`. -/
def testPatchedConfig : RateLimitConfig :=
  ⟨some (1, 1), some (1, 1), some (100, 1), some (1, 5), none,
    ["/paper/batch", "/paper/search", "/recommendations"]⟩

/-- The shipped configuration with `DEFAULT_LIMIT` replaced by the
non-positive pair `(0, 1)`, to exercise the unconstrained-limit branch. -/
def zeroDefaultConfig : RateLimitConfig :=
  ⟨some (1, 1), some (1, 1), some (0, 1), none, none,
    ["/paper/batch", "/paper/search", "/recommendations"]⟩

example : bucketKey "/paper/1" none = "/default" := by decide
example : bucketKey "/paper/search" none = "/paper/search" := by decide
example : bucketKey "/papers/forpaper/abc"
    (some "https://api.semanticscholar.org/recommendations/v1") = "/recommendations" := by decide
example : resolvedLimit srcRateLimitConfig "/paper/search" true none = some (1, 1) := by decide
example : resolvedLimit srcRateLimitConfig "/paper/search" false none = none := by decide
example : resolvedLimit srcRateLimitConfig "/paper/1" true none = some (10, 1) := by decide

-- scratch: replay of test_rate_limiter_uses_shared_bucket_for_dynamic_ids
example :
    acquireN ⟨some (1,1), some (1,1), some (2,10), none, none,
        ["/paper/batch", "/paper/search", "/recommendations"]⟩ "/paper/1" true none 2
        ⟨0, []⟩ = some ⟨0, [("/default", [0, 0])]⟩ ∧
      acquire ⟨some (1,1), some (1,1), some (2,10), none, none,
        ["/paper/batch", "/paper/search", "/recommendations"]⟩ "/paper/3" true none
        ⟨0, [("/default", [0, 0])]⟩ = some (⟨10, [("/default", [10])]⟩, 10) := by
  have h1 : resolvedLimit ⟨some (1,1), some (1,1), some (2,10), none, none,
      ["/paper/batch", "/paper/search", "/recommendations"]⟩ "/paper/1" true none
      = some (2, 10) := by decide
  have h1b : resolvedLimit ⟨some (1,1), some (1,1), some (2,10), none, none,
      ["/paper/batch", "/paper/search", "/recommendations"]⟩ "/paper/3" true none
      = some (2, 10) := by decide
  have h2 : bucketKey "/paper/1" none = "/default" := by decide
  have h2b : bucketKey "/paper/3" none = "/default" := by decide
  constructor
  · simp only [acquireN, acquire, h1, h2, ensureD, lookupD, setD]
    norm_num [acquireLoopT, lookupD, setD, acquireN, acquire, h1, h2]
  · simp only [acquire, h1b, h2b, ensureD, lookupD, setD]
    norm_num [acquireLoopT, lookupD, setD]

-- scratch: replay of test_rate_limiter_uses_unauthenticated_limits (limit supplied)
example :
    acquire ⟨some (1,1), some (1,1), some (100,1), some (1,5), none,
        ["/paper/batch", "/paper/search", "/recommendations"]⟩ "/paper/search" false none
        ⟨0, []⟩ = some (⟨0, [("/paper/search", [0])]⟩, 0) ∧
      acquire ⟨some (1,1), some (1,1), some (100,1), some (1,5), none,
        ["/paper/batch", "/paper/search", "/recommendations"]⟩ "/paper/search" false none
        ⟨0, [("/paper/search", [0])]⟩ = some (⟨5, [("/paper/search", [5])]⟩, 5) := by
  have h1 : resolvedLimit ⟨some (1,1), some (1,1), some (100,1), some (1,5), none,
      ["/paper/batch", "/paper/search", "/recommendations"]⟩ "/paper/search" false none
      = some (1, 5) := by decide
  have h2 : bucketKey "/paper/search" none = "/paper/search" := by decide
  constructor
  · simp only [acquire, h1, h2, ensureD, lookupD, setD]
    norm_num [acquireLoopT, lookupD, setD]
  · simp only [acquire, h1, h2, ensureD, lookupD, setD]
    norm_num [acquireLoopT, lookupD, setD]

/-! ## Helper lemmas -/

theorem pyStrip_data (s : String) :
    (pyStrip s).data
      = List.rdropWhile pyWhitespaceChar (List.dropWhile pyWhitespaceChar s.data) := by
  simp [pyStrip, List.rdropWhile]

theorem pyStrip_idem (s : String) : pyStrip (pyStrip s) = pyStrip s := by
  apply String.ext
  rw [pyStrip_data, pyStrip_data]
  set p := pyWhitespaceChar
  set A := List.dropWhile p s.data with hA
  have hfront : List.dropWhile p (List.rdropWhile p A) = List.rdropWhile p A := by
    rcases hB : List.rdropWhile p A with _ | ⟨b, B'⟩
    · simp
    · have hpref : List.rdropWhile p A <+: A := List.rdropWhile_prefix p A
      rw [hB] at hpref
      have hAne : A ≠ [] := by
        intro h
        rw [h] at hpref
        exact absurd (List.IsPrefix.length_le hpref) (by simp)
      have hhead : (b :: B').head (by simp) = A.head hAne := List.IsPrefix.head hpref (by simp)
      have hAfront : p (A.head hAne) = false := by
        have := List.head_dropWhile_not p s.data (by rw [← hA]; exact hAne)
        simpa [← hA] using this
      rw [List.dropWhile_cons]
      simp only [List.head_cons] at hhead
      rw [hhead, hAfront]
      simp
  rw [hfront, List.rdropWhile_idempotent]

theorem pyLower_empty_iff (s : String) : pyLower s = "" ↔ s = "" := by
  constructor
  · intro h
    cases s with
    | mk data =>
      cases data with
      | nil => rfl
      | cons c cs => simp [pyLower, String.ext_iff] at h
  · intro h
    rw [h]
    rfl

theorem normalizeKey_of_sentinel (k : Option String) (h : isAbsentOrSentinel k = true) :
    normalizeKey k = none := by
  cases k with
  | none => rfl
  | some s =>
    simp only [isAbsentOrSentinel, Bool.or_eq_true, decide_eq_true_eq] at h
    rcases h with h | h
    · simp [normalizeKey, h]
    · by_cases hs : s = "" <;> simp [normalizeKey, hs, h]

theorem getApiKey_of_sentinel (e : Option String) (h : isAbsentOrSentinel e = true) :
    getApiKey e = none := by
  cases e with
  | none => rfl
  | some s =>
    simp only [isAbsentOrSentinel, Bool.or_eq_true, decide_eq_true_eq] at h
    rcases h with h | h
    · simp [getApiKey, h]
    · by_cases hs : s = "" <;> simp [getApiKey, hs, h]

theorem normalizeKey_ne_empty (k : Option String) (v : String)
    (h : normalizeKey k = some v) : v ≠ "" := by
  cases k with
  | none => simp [normalizeKey] at h
  | some s =>
    intro hv
    by_cases hs : s = ""
    · simp [normalizeKey, hs] at h
    · by_cases hsent : pyLower (pyStrip s) ∈ keySentinels
      · simp [normalizeKey, hs, hsent] at h
      · simp only [normalizeKey, if_neg hs, if_neg hsent, Option.some.injEq] at h
        apply hsent
        rw [h, hv]
        decide

/-! ## Claims -/

/-- C3: the bucket key resolver is total into the fixed six-element
enumeration, evaluates the spec's rule table first-match-wins
(recommendations domain in base URL or endpoint first, then the category
segments, else `"/default"`), and collapses all endpoints under a
recommendations base URL into the single `"/recommendations"` bucket. -/
theorem c3_bucket_key_total_first_match (endpoint : String) (baseUrl : Option String) :
    bucketKey endpoint baseUrl
        ∈ ["/recommendations", "/author/search", "/paper/search",
           "/paper/batch", "/author/batch", "/default"] ∧
    bucketKey endpoint baseUrl = specFirstMatch (specBucketRules endpoint baseUrl) ∧
    (∀ e1 e2 b, b ≠ "" → pyIn "recommendations" b = true →
      bucketKey e1 (some b) = bucketKey e2 (some b) ∧
      bucketKey e1 (some b) = "/recommendations") := by
  refine ⟨?_, ?_, ?_⟩
  · unfold bucketKey
    split_ifs <;> simp
  · unfold bucketKey specBucketRules specFirstMatch
    rcases baseUrl with _ | b <;> simp only [Bool.false_or] <;> split_ifs <;>
      simp_all [specFirstMatch]
  · intro e1 e2 b hb hrec
    have hcond : (!(b = "") && pyIn "recommendations" b) = true := by
      simp [hb, hrec]
    constructor <;> simp [bucketKey, hcond]

/-- Witness for C3 at concrete inputs from the repository's own test for
the recommendations base URL. -/
theorem c3_witness :
    bucketKey "/papers/forpaper/abc"
        (some "https://api.semanticscholar.org/recommendations/v1")
      = bucketKey "/papers/forpaper/def"
        (some "https://api.semanticscholar.org/recommendations/v1") ∧
    bucketKey "/papers/forpaper/abc"
        (some "https://api.semanticscholar.org/recommendations/v1")
      = "/recommendations" := by
  exact (c3_bucket_key_total_first_match "/x" none).2.2
    "/papers/forpaper/abc" "/papers/forpaper/def"
    "https://api.semanticscholar.org/recommendations/v1" (by decide) (by decide)

/-- C5: credential resolution reads the caller-supplied override first and
uses it whenever it normalizes to a value; when the override is absent or
a sentinel it falls back to the process-level source; when both are absent
or sentinels the resolved credential is `None`; normalization is
idempotent; and no non-empty, non-sentinel token is mapped to `None`. -/
theorem c5_credential_resolution :
    (∀ o e v, normalizeKey o = some v → resolveKey o e = some v) ∧
    (∀ o e, normalizeKey o = none → resolveKey o e = normalizeKey (getApiKey e)) ∧
    (∀ o e, isAbsentOrSentinel o = true → isAbsentOrSentinel e = true →
      resolveKey o e = none) ∧
    (∀ k, normalizeKey (normalizeKey k) = normalizeKey k) ∧
    (∀ s, s ≠ "" → pyLower (pyStrip s) ∉ keySentinels →
      normalizeKey (some s) = some (pyStrip s)) := by
  refine ⟨?_, ?_, ?_, ?_, ?_⟩
  · intro o e v h
    rw [resolveKey, h, pyOr]
    simp [normalizeKey_ne_empty o v h]
  · intro o e h
    rw [resolveKey, h, pyOr]
  · intro o e ho he
    rw [resolveKey, normalizeKey_of_sentinel o ho, getApiKey_of_sentinel e he]
    rfl
  · intro k
    rcases hk : normalizeKey k with _ | v
    · simp [normalizeKey]
    · rcases k with _ | s
      · simp [normalizeKey] at hk
      · by_cases hs : s = ""
        · simp [normalizeKey, hs] at hk
        · by_cases hsent : pyLower (pyStrip s) ∈ keySentinels
          · simp [normalizeKey, hs, hsent] at hk
          · have hne : pyStrip s ≠ "" := by
              intro h0
              apply hsent
              rw [h0]
              decide
            have hv' : v = pyStrip s := by
              simp only [normalizeKey, if_neg hs, if_neg hsent, Option.some.injEq] at hk
              exact hk.symm
            subst hv'
            simp only [normalizeKey, if_neg hne, pyStrip_idem, if_neg hsent]
  · intro s hs hsent
    simp only [normalizeKey, if_neg hs, if_neg hsent]

/-- Witness for C5: an override that is the sentinel `" None "` falls back
to the environment key; normalization is idempotent at `" tok "`. -/
theorem c5_witness :
    resolveKey (some " None ") (some "ENV-KEY") = some "ENV-KEY" ∧
    normalizeKey (normalizeKey (some " tok ")) = normalizeKey (some " tok ") := by
  constructor
  · rw [c5_credential_resolution.2.1 (some " None ") (some "ENV-KEY") (by decide)]
    decide
  · exact c5_credential_resolution.2.2.2.1 (some " tok ")

/-- C7: a non-2xx response with status 429 is converted - returned, not
raised - into a structured `RATE_LIMIT` error record whose message says
the limit was exceeded and whose details carry the server's `retry-after`
header (when present) and the resolved authentication tier. -/
theorem c7_429_returns_rate_limit (timeoutS : Int) (authenticated : Bool)
    (retryAfter : Option String) (body : String) :
    classifyOutcome timeoutS authenticated (.httpStatusError 429 retryAfter body)
      = .errorResp
          ⟨.RATE_LIMIT,
           "Rate limit exceeded. Consider using an API key for higher limits.",
           [("status_code", .int 429),
            ("retry_after", match retryAfter with | some s => .str s | none => .none),
            ("authenticated", .bool authenticated)]⟩ := by
  simp [classifyOutcome, createErrorResponse]

/-- C8: a transport timeout is converted into a structured `TIMEOUT` error
record whose message states the configured timeout value, and is never
classified as `API_ERROR`. -/
theorem c8_timeout_never_api_error (timeoutS : Int) (authenticated : Bool) :
    classifyOutcome timeoutS authenticated .timedOut
      = .errorResp
          ⟨.TIMEOUT, "Request timed out after " ++ toString timeoutS ++ " seconds", []⟩ ∧
    resultErrType (classifyOutcome timeoutS authenticated .timedOut) ≠ some .API_ERROR := by
  constructor
  · simp [classifyOutcome, createErrorResponse]
  · simp [classifyOutcome, createErrorResponse, resultErrType]

/-! Redaction lemmas for C10. -/

theorem lookupH_setH_self (d : List (String × String)) (k v : String) :
    lookupH (setH d k v) k = (lookupH d k).map fun _ => v := by
  induction d with
  | nil => rfl
  | cons p rest ih =>
    obtain ⟨pk, pv⟩ := p
    by_cases h : pk = k
    · subst h
      simp only [setH]
      simp [lookupH]
    · simp only [setH]
      rw [if_neg h]
      simp [lookupH, h, ih]

theorem lookupH_setH_ne (d : List (String × String)) (k k' v : String)
    (h : k' ≠ k) : lookupH (setH d k v) k' = lookupH d k' := by
  induction d with
  | nil => rfl
  | cons p rest ih =>
    obtain ⟨pk, pv⟩ := p
    by_cases hp : pk = k
    · subst hp
      simp only [setH]
      simp [lookupH, Ne.symm h, ih]
    · simp only [setH]
      rw [if_neg hp]
      simp [lookupH, ih]

theorem lookupH_redactOneKey_self (d : List (String × String)) (k : String) :
    lookupH (redactOneKey k d) k
      = (lookupH d k).map fun v => if v = "" then v else "***" := by
  rcases h : lookupH d k with _ | v
  · simp [redactOneKey, h]
  · by_cases hv : v = ""
    · simp [redactOneKey, h, hv]
    · simp [redactOneKey, h, hv, lookupH_setH_self]

theorem lookupH_redactOneKey_ne (d : List (String × String)) (k k' : String)
    (h : k' ≠ k) : lookupH (redactOneKey k d) k' = lookupH d k' := by
  rcases hk : lookupH d k with _ | v
  · simp [redactOneKey, hk]
  · by_cases hv : v = ""
    · simp [redactOneKey, hk, hv]
    · simp [redactOneKey, hk, hv, lookupH_setH_ne _ _ _ _ h]

/-- C10 counterexample: the bridge's `paper_batch` handler logs its
headers without any redaction (bridge.py lines 97-107), so a
caller-supplied bearer token appears in a diagnostic record in
plaintext, contradicting the claim that no diagnostic record on the
dispatch path contains the credential. -/
theorem c10_counterexample :
    bridgeBatchLoggedHeaders (some "sk-secret-token")
      = [("x-api-key", "sk-secret-token")] ∧
    lookupH (bridgeBatchLoggedHeaders (some "sk-secret-token")) "x-api-key"
      = some "sk-secret-token" ∧
    lookupH (bridgeBatchLoggedHeaders (some "sk-secret-token")) "x-api-key"
      ≠ some "***" := by
  refine ⟨by decide, by decide, by decide⟩

/-- C10 (amended): `make_request` passes its headers through
`_redact_headers` before logging, and redaction replaces any non-empty
value at the keys `x-api-key`, `authorization` and `proxy-authorization`
with `"***"` while leaving all other entries unchanged; however the
bridge batch handlers log their `x-api-key` header unredacted, so a
caller-supplied token does appear in plaintext in those diagnostic
records. -/
theorem c10_redaction_amended :
    (∀ d k v, (k = "x-api-key" ∨ k = "authorization" ∨ k = "proxy-authorization") →
      lookupH d k = some v → v ≠ "" →
      lookupH (redactHeaders d) k = some "***") ∧
    (∀ d k, k ≠ "x-api-key" → k ≠ "authorization" → k ≠ "proxy-authorization" →
      lookupH (redactHeaders d) k = lookupH d k) ∧
    (∀ key, key ≠ "" →
      lookupH (makeRequestLoggedHeaders (some key)) "x-api-key" = some "***") ∧
    (∀ t, t ≠ "" →
      lookupH (bridgeBatchLoggedHeaders (some t)) "x-api-key" = some t) := by
  have hne1 : ("x-api-key" : String) ≠ "authorization" := by decide
  have hne2 : ("x-api-key" : String) ≠ "proxy-authorization" := by decide
  have hne3 : ("authorization" : String) ≠ "x-api-key" := by decide
  have hne4 : ("authorization" : String) ≠ "proxy-authorization" := by decide
  have hne5 : ("proxy-authorization" : String) ≠ "x-api-key" := by decide
  have hne6 : ("proxy-authorization" : String) ≠ "authorization" := by decide
  have hred : ∀ d k v, (k = "x-api-key" ∨ k = "authorization" ∨ k = "proxy-authorization") →
      lookupH d k = some v → v ≠ "" →
      lookupH (redactHeaders d) k = some "***" := by
    intro d k v hk hv hvne
    rcases hk with hk | hk | hk <;> subst hk
    · rw [redactHeaders, lookupH_redactOneKey_ne _ _ _ hne2,
        lookupH_redactOneKey_ne _ _ _ hne1, lookupH_redactOneKey_self, hv]
      simp [hvne]
    · rw [redactHeaders, lookupH_redactOneKey_ne _ _ _ hne4,
        lookupH_redactOneKey_self, lookupH_redactOneKey_ne _ _ _ hne3, hv]
      simp [hvne]
    · rw [redactHeaders, lookupH_redactOneKey_self,
        lookupH_redactOneKey_ne _ _ _ hne6, lookupH_redactOneKey_ne _ _ _ hne5, hv]
      simp [hvne]
  refine ⟨hred, ?_, ?_, ?_⟩
  · intro d k h1 h2 h3
    rw [redactHeaders, lookupH_redactOneKey_ne _ _ _ h3,
      lookupH_redactOneKey_ne _ _ _ h2, lookupH_redactOneKey_ne _ _ _ h1]
  · intro key hkey
    exact hred (requestHeaders (some key)) "x-api-key" key (Or.inl rfl)
      (by simp [requestHeaders, lookupH]) hkey
  · intro t ht
    simp [bridgeBatchLoggedHeaders, ht, lookupH]

/-- Witness for C10's amended theorem at concrete headers. -/
theorem c10_witness :
    lookupH (redactHeaders [("x-api-key", "abc"), ("accept", "json")]) "x-api-key"
      = some "***" ∧
    lookupH (redactHeaders [("x-api-key", "abc"), ("accept", "json")]) "accept"
      = lookupH [("x-api-key", "abc"), ("accept", "json")] "accept" ∧
    lookupH (bridgeBatchLoggedHeaders (some "abc")) "x-api-key" = some "abc" := by
  refine ⟨?_, ?_, ?_⟩
  · exact c10_redaction_amended.1 [("x-api-key", "abc"), ("accept", "json")]
      "x-api-key" "abc" (Or.inl rfl) (by decide) (by decide)
  · exact c10_redaction_amended.2.1 [("x-api-key", "abc"), ("accept", "json")]
      "accept" (by decide) (by decide) (by decide)
  · exact c10_redaction_amended.2.2.2 "abc" (by decide)

/-- C4: how the code actually resolves tier limits.  With the shipped
configuration an unauthenticated acquire reads the *missing* attribute
`RateLimitConfig.UNAUTHENTICATED_LIMIT` (and an authenticated
recommendations acquire reads the missing `RECOMMENDATIONS_LIMIT`), which
raises `AttributeError` (`none` here) instead of applying an
unauthenticated tier limit; with the unauthenticated limit `(1, 5)` that
the repository's own test installs, two unauthenticated acquisitions on
the same bucket are separated by exactly 5 simulated seconds;
authenticated restricted buckets resolve their category limits and other
buckets the default limit; and a non-positive resolved limit makes
acquire return immediately at the current simulated time without
recording an event. -/
theorem c4_tier_limit_resolution :
    resolvedLimit srcRateLimitConfig "/paper/search" false none = none ∧
    acquire srcRateLimitConfig "/paper/search" false none ⟨0, []⟩ = none ∧
    resolvedLimit srcRateLimitConfig "/papers/forpaper/abc" true
        (some "https://api.semanticscholar.org/recommendations/v1") = none ∧
    acquire testPatchedConfig "/paper/search" false none ⟨0, []⟩
      = some (⟨0, [("/paper/search", [0])]⟩, 0) ∧
    acquire testPatchedConfig "/paper/search" false none ⟨0, [("/paper/search", [0])]⟩
      = some (⟨5, [("/paper/search", [5])]⟩, 5) ∧
    resolvedLimit srcRateLimitConfig "/paper/batch" true none = some (1, 1) ∧
    resolvedLimit srcRateLimitConfig "/paper/search" true none = some (1, 1) ∧
    resolvedLimit srcRateLimitConfig "/paper/123" true none = some (10, 1) ∧
    acquire zeroDefaultConfig "/paper/9" true none ⟨3, []⟩
      = some (⟨3, [("/default", [])]⟩, 3) := by
  have h1 : resolvedLimit testPatchedConfig "/paper/search" false none
      = some (1, 5) := by decide
  have h2 : bucketKey "/paper/search" none = "/paper/search" := by decide
  refine ⟨by decide, by decide, by decide, ?_, ?_, by decide, by decide, by decide, ?_⟩
  · simp only [acquire, h1, h2, ensureD, lookupD, setD]
    norm_num [acquireLoopT, lookupD, setD]
  · simp only [acquire, h1, h2, ensureD, lookupD, setD]
    norm_num [acquireLoopT, lookupD, setD]
  · have h3 : resolvedLimit zeroDefaultConfig "/paper/9" true none
        = some (0, 1) := by decide
    have h4 : bucketKey "/paper/9" none = "/default" := by decide
    simp only [acquire, h3, h4, ensureD, lookupD, setD]
    norm_num

/-! Loop lemmas for the sliding-window claims. -/

/-- C9: at every suspension point of the admission loop (every pass
through `await self._sleep(delay)`), the bucket's event log is a suffix
of the log the acquisition started from: it is exactly what pruning left,
and in particular contains no event appended on behalf of the pending
acquisition.  A task cancelled during such a wait therefore leaves no
phantom event behind. -/
theorem c9_no_phantom_event_while_suspended (R : Nat) (sec : ℚ) :
    ∀ (fuel : Nat) (now : ℚ) (events : List ℚ) (tSleep : ℚ) (L : List ℚ),
      (tSleep, L) ∈ (acquireLoopT R sec fuel now events).1 → L <:+ events := by
  intro fuel
  induction fuel with
  | zero =>
    intro now events tSleep L h
    simp [acquireLoopT] at h
  | succ n ih =>
    intro now events tSleep L h
    simp only [acquireLoopT] at h
    have hsuf : events.dropWhile (fun e => decide (e ≤ now - sec)) <:+ events :=
      List.dropWhile_suffix _
    by_cases hlen : (events.dropWhile fun e => decide (e ≤ now - sec)).length < R
    · rw [if_pos hlen] at h
      simp at h
    · rw [if_neg hlen] at h
      rcases hp : events.dropWhile fun e => decide (e ≤ now - sec) with _ | ⟨e0, rest⟩
      · rw [hp] at h
        simp at h
      · rw [hp] at h
        rw [hp] at hsuf
        simp only [] at h
        by_cases hdel : 0 < e0 + sec - now
        · rw [if_pos hdel] at h
          simp only [List.mem_cons] at h
          rcases h with h | h
          · obtain ⟨h1, h2⟩ := Prod.mk.injEq .. ▸ h
            rw [h2]
            exact hsuf
          · exact (ih _ _ _ _ h).trans hsuf
        · rw [if_neg hdel] at h
          exact (ih _ _ _ _ h).trans hsuf

/-- Witness for C9: a concrete blocked acquisition (limit 1 per 5
seconds, one event at time 0) suspends once with the log `[0]`, a suffix
of the initial log. -/
theorem c9_witness :
    ((0:ℚ), [(0:ℚ)]) ∈ (acquireLoopT 1 5 2 0 [0]).1 ∧ [(0:ℚ)] <:+ [(0:ℚ)] := by
  have hmem : ((0:ℚ), [(0:ℚ)]) ∈ (acquireLoopT 1 5 2 0 [0]).1 := by
    norm_num [acquireLoopT]
  exact ⟨hmem, c9_no_phantom_event_while_suspended 1 5 2 0 [0] 0 [0] hmem⟩

theorem lookupD_setD_self (d : List (String × List ℚ)) (k : String) (v : List ℚ) :
    lookupD (setD d k v) k = some v := by
  induction d with
  | nil => simp [setD, lookupD]
  | cons p rest ih =>
    obtain ⟨pk, pv⟩ := p
    by_cases h : pk = k
    · subst h
      simp only [setD]
      simp [lookupD]
    · simp only [setD]
      rw [if_neg h]
      simp [lookupD, h, ih]

/-- Every successful run of the admission loop returns the pruned log of
some suffix of the starting log with exactly one new timestamp appended,
and only when the pruned count was strictly below the limit. -/
theorem acquireLoopT_snd_spec (R : Nat) (sec : ℚ) :
    ∀ (fuel : Nat) (now now' : ℚ) (events events' : List ℚ),
      (acquireLoopT R sec fuel now events).2 = some (now', events') →
      ∃ prev, prev <:+ events ∧
        events' = (prev.dropWhile fun e => decide (e ≤ now' - sec)) ++ [now'] ∧
        (prev.dropWhile fun e => decide (e ≤ now' - sec)).length < R := by
  intro fuel
  induction fuel with
  | zero =>
    intro now now' events events' h
    simp [acquireLoopT] at h
  | succ n ih =>
    intro now now' events events' h
    simp only [acquireLoopT] at h
    by_cases hlen : (events.dropWhile fun e => decide (e ≤ now - sec)).length < R
    · rw [if_pos hlen] at h
      simp only [Option.some.injEq, Prod.mk.injEq] at h
      obtain ⟨h1, h2⟩ := h
      subst h1
      exact ⟨events, List.suffix_refl _, h2.symm, hlen⟩
    · rw [if_neg hlen] at h
      rcases hp : events.dropWhile fun e => decide (e ≤ now - sec) with _ | ⟨e0, rest⟩
      · rw [hp] at h
        simp at h
      · rw [hp] at h
        simp only [] at h
        have hsuf : e0 :: rest <:+ events := hp ▸ List.dropWhile_suffix _
        by_cases hdel : 0 < e0 + sec - now
        · rw [if_pos hdel] at h
          simp only [] at h
          obtain ⟨prev, hp1, hp2, hp3⟩ := ih _ _ _ _ h
          exact ⟨prev, hp1.trans hsuf, hp2, hp3⟩
        · rw [if_neg hdel] at h
          obtain ⟨prev, hp1, hp2, hp3⟩ := ih _ _ _ _ h
          exact ⟨prev, hp1.trans hsuf, hp2, hp3⟩

/-- C2: for a bucket whose resolved limit `(R, S)` is positive, every
completed `acquire` leaves the bucket's log as a pruned log (events at or
before `ret - S` dropped from the front of a suffix of the starting log)
plus the single admission timestamp, appended only because the pruned
count was strictly below `R`; hence the log length never exceeds `R`. -/
theorem c2_log_bounded_invariant (cfg : RateLimitConfig) (endpoint : String)
    (authenticated : Bool) (baseUrl : Option String) (R S : Int)
    (st st' : LimiterState) (ret : ℚ)
    (hres : resolvedLimit cfg endpoint authenticated baseUrl = some (R, S))
    (hR : 0 < R) (hS : 0 < S)
    (hacq : acquire cfg endpoint authenticated baseUrl st = some (st', ret)) :
    ∃ prev,
      prev <:+ (lookupD (ensureD st.events (bucketKey endpoint baseUrl))
          (bucketKey endpoint baseUrl)).getD [] ∧
      lookupD st'.events (bucketKey endpoint baseUrl)
        = some ((prev.dropWhile fun e => decide (e ≤ ret - (S:ℚ))) ++ [ret]) ∧
      (prev.dropWhile fun e => decide (e ≤ ret - (S:ℚ))).length < R.toNat ∧
      ((prev.dropWhile fun e => decide (e ≤ ret - (S:ℚ))) ++ [ret]).length ≤ R.toNat := by
  have hneg : ¬ (R ≤ 0 ∨ S ≤ 0) := by
    push_neg
    exact ⟨hR, hS⟩
  simp only [acquire, hres] at hacq
  rw [if_neg hneg] at hacq
  rcases hl : (acquireLoopT R.toNat ((S:Int) : ℚ)
      (((lookupD (ensureD st.events (bucketKey endpoint baseUrl))
          (bucketKey endpoint baseUrl)).getD []).length + 1) st.now
      ((lookupD (ensureD st.events (bucketKey endpoint baseUrl))
          (bucketKey endpoint baseUrl)).getD [])).2 with _ | ⟨now', ev'⟩
  · rw [hl] at hacq
    simp at hacq
  · rw [hl] at hacq
    simp only [Option.some.injEq, Prod.mk.injEq] at hacq
    obtain ⟨h1, h2⟩ := hacq
    obtain ⟨prev, hs1, hs2, hs3⟩ := acquireLoopT_snd_spec R.toNat ((S:Int) : ℚ) _ _ _ _ _ hl
    subst h2
    refine ⟨prev, hs1, ?_, hs3, ?_⟩
    · rw [← h1]
      simp only [← hs2]
      exact lookupD_setD_self _ _ _
    · rw [List.length_append]
      exact hs3

/-- Witness for C2 at a concrete acquire on the `/paper/search` bucket
with the shipped limit `(1, 1)`. -/
theorem c2_witness :
    ∃ prev,
      prev <:+ (lookupD (ensureD ([] : List (String × List ℚ))
          (bucketKey "/paper/search" none)) (bucketKey "/paper/search" none)).getD [] ∧
      lookupD [("/paper/search", [(0:ℚ)])] (bucketKey "/paper/search" none)
        = some ((prev.dropWhile fun e => decide (e ≤ (0:ℚ) - ((1:Int):ℚ))) ++ [(0:ℚ)]) ∧
      (prev.dropWhile fun e => decide (e ≤ (0:ℚ) - ((1:Int):ℚ))).length < (1:Int).toNat ∧
      ((prev.dropWhile fun e => decide (e ≤ (0:ℚ) - ((1:Int):ℚ))) ++ [(0:ℚ)]).length
        ≤ (1:Int).toNat := by
  have hacq : acquire srcRateLimitConfig "/paper/search" true none ⟨0, []⟩
      = some (⟨0, [("/paper/search", [0])]⟩, 0) := by
    have h1 : resolvedLimit srcRateLimitConfig "/paper/search" true none
        = some (1, 1) := by decide
    have h2 : bucketKey "/paper/search" none = "/paper/search" := by decide
    simp only [acquire, h1, h2, ensureD, lookupD, setD]
    norm_num [acquireLoopT, lookupD, setD]
  exact c2_log_bounded_invariant srcRateLimitConfig "/paper/search" true none 1 1
    ⟨0, []⟩ ⟨0, [("/paper/search", [0])]⟩ 0 (by decide) (by decide) (by decide) hacq

theorem dropWhile_replicate_pos (t cutoff : ℚ) (n : Nat) (h : ¬ t ≤ cutoff) :
    (List.replicate n t).dropWhile (fun e => decide (e ≤ cutoff)) = List.replicate n t := by
  cases n with
  | zero => rfl
  | succ m =>
    rw [List.replicate_succ, List.dropWhile_cons]
    simp [h]

theorem dropWhile_replicate_all (t cutoff : ℚ) (n : Nat) (h : t ≤ cutoff) :
    (List.replicate n t).dropWhile (fun e => decide (e ≤ cutoff)) = [] := by
  induction n with
  | zero => rfl
  | succ m ih =>
    rw [List.replicate_succ, List.dropWhile_cons]
    simp [h, ih]

/-- One loop iteration that admits: the pruned log is below the limit, so
the admission time is recorded and the loop returns. -/
theorem acquireLoopT_succ_admits (R : Nat) (sec : ℚ) (fuel : Nat) (now : ℚ)
    (events pruned : List ℚ)
    (hpr : events.dropWhile (fun e => decide (e ≤ now - sec)) = pruned)
    (hlen : pruned.length < R) :
    (acquireLoopT R sec (fuel + 1) now events).2 = some (now, pruned ++ [now]) := by
  simp only [acquireLoopT]
  rw [hpr, if_pos hlen]

/-- One loop iteration that blocks: the pruned log is full, so the loop
sleeps until the oldest event leaves the window and iterates. -/
theorem acquireLoopT_succ_blocked_sleeps (R : Nat) (sec : ℚ) (fuel : Nat) (now : ℚ)
    (events : List ℚ) (e0 : ℚ) (rest : List ℚ)
    (hpr : events.dropWhile (fun e => decide (e ≤ now - sec)) = e0 :: rest)
    (hlen : ¬ ((e0 :: rest).length < R)) (hdel : 0 < e0 + sec - now) :
    (acquireLoopT R sec (fuel + 1) now events).2
      = (acquireLoopT R sec fuel (e0 + sec) (e0 :: rest)).2 := by
  simp only [acquireLoopT]
  rw [hpr, if_neg hlen]
  simp only []
  rw [if_pos hdel]
  have harg : now + (e0 + sec - now) = e0 + sec := by ring
  rw [harg]

/-- A full bucket of `m + 1` events all stamped `t`: the next acquisition
sleeps exactly one window and is admitted at `t + W`. -/
theorem acquireLoopT_replicate_blocked (m f : Nat) (W t : ℚ) (hW : 0 < W) :
    (acquireLoopT (m + 1) W (f + 2) t (List.replicate (m + 1) t)).2
      = some (t + W, [t + W]) := by
  have hnle : ¬ (t ≤ t - W) := by linarith
  have hpr1 : (List.replicate (m + 1) t).dropWhile (fun e => decide (e ≤ t - W))
      = t :: List.replicate m t := by
    rw [dropWhile_replicate_pos t (t - W) (m + 1) hnle, List.replicate_succ]
  have hlen1 : ¬ ((t :: List.replicate m t).length < m + 1) := by simp
  have hdel1 : 0 < t + W - t := by linarith
  have step1 := acquireLoopT_succ_blocked_sleeps (m + 1) W (f + 1) t
    (List.replicate (m + 1) t) t (List.replicate m t) hpr1 hlen1 hdel1
  rw [step1]
  have hpr2 : (t :: List.replicate m t).dropWhile (fun e => decide (e ≤ (t + W) - W))
      = [] := by
    have e2 : t + W - W = t := by ring
    rw [e2, List.dropWhile_cons]
    simp [dropWhile_replicate_all t t m le_rfl]
  rw [acquireLoopT_succ_admits (m + 1) W f (t + W) _ [] hpr2 (by simp)]
  simp

/-- Below the limit, an acquire on a bucket holding `j < N` events all
stamped `t` is admitted immediately at `t` and appends its timestamp. -/
theorem acquire_admits_replicate (cfg : RateLimitConfig) (endpoint : String)
    (authenticated : Bool) (baseUrl : Option String) (N W : Int) (t : ℚ) (j : Nat)
    (hres : resolvedLimit cfg endpoint authenticated baseUrl = some (N, W))
    (hN : 0 < N) (hW : 0 < W) (hj : j < N.toNat) :
    acquire cfg endpoint authenticated baseUrl
        ⟨t, [(bucketKey endpoint baseUrl, List.replicate j t)]⟩
      = some (⟨t, [(bucketKey endpoint baseUrl, List.replicate (j + 1) t)]⟩, t) := by
  have hneg : ¬ (N ≤ 0 ∨ W ≤ 0) := by
    push_neg
    exact ⟨hN, hW⟩
  have hWq : (0:ℚ) < ((W : Int) : ℚ) := by exact_mod_cast hW
  have hlook : lookupD [(bucketKey endpoint baseUrl, List.replicate j t)]
      (bucketKey endpoint baseUrl) = some (List.replicate j t) := by
    simp [lookupD]
  have hens : ensureD [(bucketKey endpoint baseUrl, List.replicate j t)]
      (bucketKey endpoint baseUrl)
      = [(bucketKey endpoint baseUrl, List.replicate j t)] := by
    simp [ensureD, hlook]
  have hpr : (List.replicate j t).dropWhile (fun e => decide (e ≤ t - ((W : Int) : ℚ)))
      = List.replicate j t :=
    dropWhile_replicate_pos _ _ _ (by linarith)
  have hloop := acquireLoopT_succ_admits N.toNat ((W : Int) : ℚ) j t
    (List.replicate j t) (List.replicate j t) hpr (by simpa using hj)
  simp only [acquire, hres]
  rw [if_neg hneg]
  simp only [hens, hlook, Option.getD_some, List.length_replicate]
  rw [hloop]
  simp only []
  rw [← List.replicate_succ']
  simp [setD]

/-- The very first acquire on a fresh limiter creates the bucket and is
admitted immediately. -/
theorem acquire_first_from_empty (cfg : RateLimitConfig) (endpoint : String)
    (authenticated : Bool) (baseUrl : Option String) (N W : Int) (t : ℚ)
    (hres : resolvedLimit cfg endpoint authenticated baseUrl = some (N, W))
    (hN : 0 < N) (hW : 0 < W) :
    acquire cfg endpoint authenticated baseUrl ⟨t, []⟩
      = some (⟨t, [(bucketKey endpoint baseUrl, [t])]⟩, t) := by
  have hneg : ¬ (N ≤ 0 ∨ W ≤ 0) := by
    push_neg
    exact ⟨hN, hW⟩
  have h0 : 0 < N.toNat := by omega
  have hens : ensureD ([] : List (String × List ℚ)) (bucketKey endpoint baseUrl)
      = [(bucketKey endpoint baseUrl, [])] := by
    simp [ensureD, lookupD, setD]
  have hlook : lookupD [(bucketKey endpoint baseUrl, ([] : List ℚ))]
      (bucketKey endpoint baseUrl) = some [] := by
    simp [lookupD]
  have hloop := acquireLoopT_succ_admits N.toNat ((W : Int) : ℚ) 0 t [] [] rfl
    (by simpa using h0)
  simp only [acquire, hres]
  rw [if_neg hneg]
  simp only [hens, hlook, Option.getD_some, List.length_nil]
  rw [hloop]
  simp [setD]

/-- Any `k` further acquires on a bucket holding `j` events stamped `t` are
all admitted at `t` while `j + k` stays within the limit. -/
theorem acquireN_saturates (cfg : RateLimitConfig) (endpoint : String)
    (authenticated : Bool) (baseUrl : Option String) (N W : Int) (t : ℚ)
    (hres : resolvedLimit cfg endpoint authenticated baseUrl = some (N, W))
    (hN : 0 < N) (hW : 0 < W) :
    ∀ (k j : Nat), j + k ≤ N.toNat →
      acquireN cfg endpoint authenticated baseUrl k
          ⟨t, [(bucketKey endpoint baseUrl, List.replicate j t)]⟩
        = some ⟨t, [(bucketKey endpoint baseUrl, List.replicate (j + k) t)]⟩ := by
  intro k
  induction k with
  | zero =>
    intro j h
    simp [acquireN]
  | succ m ih =>
    intro j h
    rw [acquireN]
    rw [acquire_admits_replicate cfg endpoint authenticated baseUrl N W t j hres hN hW
      (by omega)]
    simp only []
    have e : j + (m + 1) = j + 1 + m := by omega
    rw [e]
    exact ih (j + 1) (by omega)

/-- An acquire on a bucket at capacity (`N` events all stamped `t`, clock
at `t`) sleeps one full window and is admitted exactly at `t + W`. -/
theorem acquire_blocked_at_capacity (cfg : RateLimitConfig) (endpoint : String)
    (authenticated : Bool) (baseUrl : Option String) (N W : Int) (t : ℚ)
    (hres : resolvedLimit cfg endpoint authenticated baseUrl = some (N, W))
    (hN : 0 < N) (hW : 0 < W) :
    acquire cfg endpoint authenticated baseUrl
        ⟨t, [(bucketKey endpoint baseUrl, List.replicate N.toNat t)]⟩
      = some (⟨t + ((W : Int) : ℚ), [(bucketKey endpoint baseUrl, [t + ((W : Int) : ℚ)])]⟩,
          t + ((W : Int) : ℚ)) := by
  obtain ⟨m, hm⟩ : ∃ m, N.toNat = m + 1 := ⟨N.toNat - 1, by omega⟩
  have hWq : (0:ℚ) < ((W : Int) : ℚ) := by exact_mod_cast hW
  have hneg : ¬ (N ≤ 0 ∨ W ≤ 0) := by
    push_neg
    exact ⟨hN, hW⟩
  have hlook : lookupD [(bucketKey endpoint baseUrl, List.replicate N.toNat t)]
      (bucketKey endpoint baseUrl) = some (List.replicate N.toNat t) := by
    simp [lookupD]
  have hens : ensureD [(bucketKey endpoint baseUrl, List.replicate N.toNat t)]
      (bucketKey endpoint baseUrl)
      = [(bucketKey endpoint baseUrl, List.replicate N.toNat t)] := by
    simp [ensureD, hlook]
  have hloop := acquireLoopT_replicate_blocked m m ((W : Int) : ℚ) t hWq
  simp only [acquire, hres]
  rw [if_neg hneg]
  simp only [hens, hlook, Option.getD_some, List.length_replicate]
  rw [hm]
  rw [show m + 1 + 1 = m + 2 from rfl]
  rw [hloop]
  simp [setD]

/-- All `N` acquisitions starting from a fresh limiter at time `t` are
admitted at `t`, filling the bucket. -/
theorem acquireN_fills_from_empty (cfg : RateLimitConfig) (endpoint : String)
    (authenticated : Bool) (baseUrl : Option String) (N W : Int) (t : ℚ)
    (hres : resolvedLimit cfg endpoint authenticated baseUrl = some (N, W))
    (hN : 0 < N) (hW : 0 < W) :
    acquireN cfg endpoint authenticated baseUrl N.toNat ⟨t, []⟩
      = some ⟨t, [(bucketKey endpoint baseUrl, List.replicate N.toNat t)]⟩ := by
  obtain ⟨m, hm⟩ : ∃ m, N.toNat = m + 1 := ⟨N.toNat - 1, by omega⟩
  rw [hm, acquireN]
  rw [acquire_first_from_empty cfg endpoint authenticated baseUrl N W t hres hN hW]
  simp only []
  have hsat := acquireN_saturates cfg endpoint authenticated baseUrl N W t hres hN hW
    m 1 (by omega)
  rw [List.replicate_one] at hsat
  have e : 1 + m = m + 1 := by omega
  rw [e] at hsat
  exact hsat

/-- C1: for a bucket whose resolved limit is `(N, W)` with both positive,
under the deterministic clock/sleep substitute: starting from a fresh
limiter at simulated time `t`, `N` acquisitions are all admitted at `t`
(the clock does not advance), and the `(N+1)`th acquire on the same
bucket returns exactly at simulated time `t + W` — in particular it does
not return before `t + W`. -/
theorem c1_window_delay_exact (cfg : RateLimitConfig) (endpoint : String)
    (authenticated : Bool) (baseUrl : Option String) (N W : Int) (t : ℚ)
    (hres : resolvedLimit cfg endpoint authenticated baseUrl = some (N, W))
    (hN : 0 < N) (hW : 0 < W) :
    acquireN cfg endpoint authenticated baseUrl N.toNat ⟨t, []⟩
      = some ⟨t, [(bucketKey endpoint baseUrl, List.replicate N.toNat t)]⟩ ∧
    acquire cfg endpoint authenticated baseUrl
        ⟨t, [(bucketKey endpoint baseUrl, List.replicate N.toNat t)]⟩
      = some (⟨t + ((W : Int) : ℚ), [(bucketKey endpoint baseUrl, [t + ((W : Int) : ℚ)])]⟩,
          t + ((W : Int) : ℚ)) :=
  ⟨acquireN_fills_from_empty cfg endpoint authenticated baseUrl N W t hres hN hW,
   acquire_blocked_at_capacity cfg endpoint authenticated baseUrl N W t hres hN hW⟩

/-- Witness for C1 with the shipped search limit `(1, 1)` on the
`/paper/search` bucket, starting at simulated time 0: the first acquire
is admitted at 0 and the second returns exactly at 1. -/
theorem c1_witness :
    acquireN srcRateLimitConfig "/paper/search" true none (Int.toNat 1) ⟨0, []⟩
      = some ⟨0, [(bucketKey "/paper/search" none, List.replicate (Int.toNat 1) (0:ℚ))]⟩ ∧
    acquire srcRateLimitConfig "/paper/search" true none
        ⟨0, [(bucketKey "/paper/search" none, List.replicate (Int.toNat 1) (0:ℚ))]⟩
      = some (⟨0 + (((1:Int) : Int) : ℚ),
          [(bucketKey "/paper/search" none, [0 + (((1:Int) : Int) : ℚ)])]⟩,
          0 + (((1:Int) : Int) : ℚ)) :=
  c1_window_delay_exact srcRateLimitConfig "/paper/search" true none 1 1 0
    (by decide) (by decide) (by decide)

/-- Distinct uncategorized endpoints (`/paper/1`, `/author/2`) both map to
the `"/default"` bucket and share its single event log: with the shipped
`DEFAULT_LIMIT = (10, 1)`, ten acquisitions on `/paper/1` at time 0 fill
the log, after which an acquire on the different path `/author/2` is
admitted only at time 1 — while on a fresh limiter it would be admitted
at time 0. -/
theorem defaultBucket_shared_facts :
    bucketKey "/paper/1" none = "/default" ∧
    bucketKey "/author/2" none = "/default" ∧
    acquireN srcRateLimitConfig "/paper/1" true none 10 ⟨0, []⟩
      = some ⟨0, [("/default", List.replicate 10 (0:ℚ))]⟩ ∧
    acquire srcRateLimitConfig "/author/2" true none
        ⟨0, [("/default", List.replicate 10 (0:ℚ))]⟩
      = some (⟨1, [("/default", [1])]⟩, 1) ∧
    acquire srcRateLimitConfig "/author/2" true none ⟨0, []⟩
      = some (⟨0, [("/default", [(0:ℚ)])]⟩, 0) := by
  have h1 : resolvedLimit srcRateLimitConfig "/paper/1" true none = some (10, 1) := by
    decide
  have h2 : resolvedLimit srcRateLimitConfig "/author/2" true none = some (10, 1) := by
    decide
  have hb1 : bucketKey "/paper/1" none = "/default" := by decide
  have hb2 : bucketKey "/author/2" none = "/default" := by decide
  refine ⟨hb1, hb2, ?_, ?_, ?_⟩
  · have h := acquireN_fills_from_empty srcRateLimitConfig "/paper/1" true none 10 1 0
      h1 (by decide) (by decide)
    rw [hb1] at h
    exact h
  · have h := acquire_blocked_at_capacity srcRateLimitConfig "/author/2" true none 10 1 0
      h2 (by decide) (by decide)
    rw [hb2] at h
    have e : (0:ℚ) + (((1:Int) : Int) : ℚ) = 1 := by norm_num
    rw [e] at h
    exact h
  · have h := acquire_first_from_empty srcRateLimitConfig "/author/2" true none 10 1 0
      h2 (by decide) (by decide)
    rw [hb2] at h
    exact h

/-- C6 counterexample: uncategorized concrete paths are *not* throttled
independently.  `/paper/1` and `/author/2` are distinct uncategorized
paths, yet after ten admissions for `/paper/1` at time 0 an acquire for
`/author/2` only returns at time 1, although on a fresh limiter it
returns at time 0 — the two paths share the `"/default"` bucket's log. -/
theorem c6_counterexample :
    bucketKey "/paper/1" none = "/default" ∧
    bucketKey "/author/2" none = "/default" ∧
    acquireN srcRateLimitConfig "/paper/1" true none 10 ⟨0, []⟩
      = some ⟨0, [("/default", List.replicate 10 (0:ℚ))]⟩ ∧
    acquire srcRateLimitConfig "/author/2" true none
        ⟨0, [("/default", List.replicate 10 (0:ℚ))]⟩
      = some (⟨1, [("/default", [1])]⟩, 1) ∧
    acquire srcRateLimitConfig "/author/2" true none ⟨0, []⟩
      = some (⟨0, [("/default", [(0:ℚ)])]⟩, 0) :=
  defaultBucket_shared_facts

/-- C6 (amended): endpoints matching no category rule use the
`"/default"` bucket while the limit lookup still receives the literal
endpoint string; but all uncategorized paths share the single
`"/default"` event log, so two acquisitions on distinct uncategorized
concrete paths throttle each other rather than being independent. -/
theorem c6_default_bucket_literal_lookup :
    (∀ e u, bucketKey e u = "/default" → limitEndpointOf e u = e) ∧
    (bucketKey "/paper/1" none = "/default" ∧
     bucketKey "/author/2" none = "/default" ∧
     acquireN srcRateLimitConfig "/paper/1" true none 10 ⟨0, []⟩
       = some ⟨0, [("/default", List.replicate 10 (0:ℚ))]⟩ ∧
     acquire srcRateLimitConfig "/author/2" true none
         ⟨0, [("/default", List.replicate 10 (0:ℚ))]⟩
       = some (⟨1, [("/default", [1])]⟩, 1) ∧
     acquire srcRateLimitConfig "/author/2" true none ⟨0, []⟩
       = some (⟨0, [("/default", [(0:ℚ)])]⟩, 0)) :=
  ⟨fun e u h => by simp [limitEndpointOf, h], defaultBucket_shared_facts⟩

/-- Witness for C6's amended theorem: the `/default`-bucketed endpoint
`/paper/1` keeps its literal string for the limit lookup. -/
theorem c6_witness : limitEndpointOf "/paper/1" none = "/paper/1" :=
  c6_default_bucket_literal_lookup.1 "/paper/1" none (by decide)
